import Mathlib

/-!
Shallow embedding of the KeyRing orchestration layer of `crypto/keyring.go`
(go-pm-crypto). Pure functions mirror the Go code statement by statement;
the OpenPGP engine, the armor codec and the IO readers are collaborators,
so their results enter the embedded functions as explicit parameters.
Strings stand for both Go strings and byte slices.
-/

namespace PmCrypto

/-- Error values of the layer. Go compares errors by identity
(`err == pgperrors.ErrSignatureExpired`), so distinct constructors model
distinct error values; `engine n` stands for an arbitrary engine / IO error
that this layer merely passes through. -/
inductive PgpError where
  | signatureExpired
  | notAPgpMessage
  | keyRingNotUnlocked
  | noKeyMaterial
  | noPrivateKeyAvailable
  | allKeysExpired
  | wrongPassphrase (keyid : Nat)
  | engine (code : Nat)
deriving DecidableEq, Repr

/-- A `packet.PrivateKey`. `encrypted` is the `Encrypted` flag; the engine
primitive `key.Decrypt(passphrase)` succeeds exactly when the supplied
passphrase equals `pass` (engine abstraction), and `keyid` identifies the
error value a failed decryption of this key returns. -/
structure PrivateKey where
  encrypted : Bool
  pass : String
  keyid : Nat
deriving DecidableEq, Repr

/-- The self-signature data of a subkey that `crypto/keyring.go` reads:
the capability flags used by `Unlock`, and `keyExpired`, the value of the
engine predicate `Sig.KeyExpired(now)` at the single `now` of a
`FilterExpiredKeys` call. -/
structure SubkeySig where
  flagsValid : Bool
  flagEncryptStorage : Bool
  flagEncryptCommunications : Bool
  keyExpired : Bool
deriving DecidableEq, Repr

/-- An `openpgp.Subkey`: optional private key material plus its
self-signature. -/
structure Subkey where
  privateKey : Option PrivateKey
  sig : SubkeySig
deriving DecidableEq, Repr

/-- An `openpgp.Entity`: optional primary private key and the subkeys.
Only the fields `crypto/keyring.go` consults are represented. -/
structure Entity where
  privateKey : Option PrivateKey
  subkeys : List Subkey
deriving DecidableEq, Repr

/-- `KeyRing` from the source: an ordered entity list plus the
`FirstKeyID` label. -/
structure KeyRing where
  entities : List Entity
  FirstKeyID : String
deriving DecidableEq, Repr

/-- `openpgp.MessageDetails` as used here: the unverified body stream
(modelled by its full contents), whether the message is signed, and
`SignatureError`, which the engine resolves once the body has been fully
consumed. -/
structure MessageDetails where
  unverifiedBody : String
  isSigned : Bool
  signatureError : Option PgpError
deriving DecidableEq, Repr

/-- `Signature` from the source: wraps the message details. -/
structure Signature where
  md : MessageDetails
deriving DecidableEq, Repr

/-- `Signature.Err()` from the source: returns `md.SignatureError`. -/
def Signature.Err (s : Signature) : Option PgpError :=
  s.md.signatureError

/-- The spec's verification outcome vocabulary for a `Signature` handle. -/
inductive VerificationOutcome where
  | valid
  | invalid (e : PgpError)
  | expired
deriving DecidableEq, Repr

/-- The spec's classification of `Signature.Err()` into an outcome:
no error is Valid, the tolerated `signatureExpired` is Expired, and any
other error is Invalid. -/
def Signature.outcome (s : Signature) : VerificationOutcome :=
  match s.Err with
  | none => VerificationOutcome.valid
  | some PgpError.signatureExpired => VerificationOutcome.expired
  | some e => VerificationOutcome.invalid e

/-- `SignedString` from the source: the decrypted string (`String` field)
with its optional `Signature` (`Signed` field). -/
structure SignedString where
  str : String
  signed : Option Signature
deriving DecidableEq, Repr

/-- Result triple of `KeyRing.Decrypt`: the decrypted reader (modelled by
its contents; `none` is Go's nil reader), the optional signature handle,
and the returned error. -/
structure DecryptOut where
  decrypted : Option String
  signed : Option Signature
  err : Option PgpError
deriving DecidableEq, Repr

/-- `KeyRing.Decrypt`. The engine call
`openpgp.ReadMessage(r, kr.entities, nil, nil)` is a collaborator; its
result enters as the pair `(md, err)`. As in Go, `md` is only consulted
when `err` is nil or `ErrSignatureExpired` (on a hard error the Go pointer
is nil and never dereferenced, so the carried value is irrelevant there). -/
def KeyRing.Decrypt (kr : KeyRing) (readMsg : MessageDetails × Option PgpError) :
    DecryptOut :=
  let md := readMsg.1
  match readMsg.2 with
  | some e =>
      if e = PgpError.signatureExpired then
        { decrypted := some md.unverifiedBody
          signed := if md.isSigned then some ⟨md⟩ else none
          err := some e }
      else
        { decrypted := none, signed := none, err := some e }
  | none =>
      { decrypted := some md.unverifiedBody
        signed := if md.isSigned then some ⟨md⟩ else none
        err := none }

/-- An armor block as returned by `armor.Decode`: only its `Type` is read
by this layer; its body is the reader handed to `Decrypt`, whose engine
read result is a separate parameter. -/
structure ArmorBlock where
  type : String
deriving DecidableEq, Repr

/-- The armor type tag `constants.PGPMessageHeader`. -/
def PGPMessageHeader : String := "PGP MESSAGE"

/-- `KeyRing.DecryptArmored`. `armorRes` is the collaborator result of
`armor.Decode(r)` (block plus error, with the same convention as
`Decrypt` for hard errors); `readMsg` is the engine result of reading the
block's body. -/
def KeyRing.DecryptArmored (kr : KeyRing)
    (armorRes : ArmorBlock × Option PgpError)
    (readMsg : MessageDetails × Option PgpError) : DecryptOut :=
  match armorRes.2 with
  | some e =>
      if e = PgpError.signatureExpired then
        if armorRes.1.type ≠ PGPMessageHeader then
          { decrypted := none, signed := none,
            err := some PgpError.notAPgpMessage }
        else kr.Decrypt readMsg
      else { decrypted := none, signed := none, err := some e }
  | none =>
      if armorRes.1.type ≠ PGPMessageHeader then
        { decrypted := none, signed := none,
          err := some PgpError.notAPgpMessage }
      else kr.Decrypt readMsg

/-- `KeyRing.DecryptString`. `readAll` is the collaborator result of
`ioutil.ReadAll` on the decrypted reader: the bytes obtained plus the
error reported at end of stream (where the engine resolves the signature
check). On a hard error the original input `encrypted` is returned with a
nil signature. -/
def KeyRing.DecryptString (kr : KeyRing) (encrypted : String)
    (armorRes : ArmorBlock × Option PgpError)
    (readMsg : MessageDetails × Option PgpError)
    (readAll : String × Option PgpError) : SignedString × Option PgpError :=
  let out := kr.DecryptArmored armorRes readMsg
  let afterRead : SignedString × Option PgpError :=
    match readAll.2 with
    | some e =>
        if e = PgpError.signatureExpired then
          ({ str := readAll.1, signed := out.signed }, none)
        else ({ str := encrypted, signed := none }, some e)
    | none => ({ str := readAll.1, signed := out.signed }, none)
  match out.err with
  | some e =>
      if e = PgpError.signatureExpired then afterRead
      else ({ str := encrypted, signed := none }, some e)
  | none => afterRead

/-- The signer test of `KeyRing.Encrypt`, `DetachedSign` and `VerifyString`:
`e.PrivateKey != nil && !e.PrivateKey.Encrypted`. -/
def Entity.unlockedSigner (e : Entity) : Bool :=
  match e.privateKey with
  | some k => !k.encrypted
  | none => false

/-- The recipient-collection loop of `KeyRing.Encrypt`: it appends the
first entity and breaks, so the recipient list is at most the head. -/
def firstEntityOnly : List Entity → List Entity
  | [] => []
  | e :: _ => [e]

/-- What `KeyRing.Encrypt` hands to `EncryptCore` (and hence to the
engine's `openpgp.Encrypt`/`EncryptText`): the recipient entities, the
optional signing entity, and the file hints derived from the arguments. -/
structure EncryptPlan where
  recipients : List Entity
  signer : Option Entity
  filename : String
  isBinary : Bool
deriving DecidableEq, Repr

/-- `KeyRing.Encrypt`: collects the recipients (first entity only), and if
a signer ring is given scans its entities for the first one whose private
key is present and not encrypted; with no such entity it returns
`errKeyringNotUnlocked` and no writer. On success the engine call is
abstracted as the returned plan. -/
def KeyRing.Encrypt (kr : KeyRing) (sign : Option KeyRing)
    (filename : String) (canonicalizeText : Bool) : Except PgpError EncryptPlan :=
  let encryptEntities := firstEntityOnly kr.entities
  match sign with
  | none =>
      Except.ok { recipients := encryptEntities, signer := none,
                  filename := filename, isBinary := !canonicalizeText }
  | some s =>
      match s.entities.find? Entity.unlockedSigner with
      | none => Except.error PgpError.keyRingNotUnlocked
      | some e =>
          Except.ok { recipients := encryptEntities, signer := some e,
                      filename := filename, isBinary := !canonicalizeText }

/-- The three output modes of `DetachedSign`, chosen by its flags. -/
inductive SignMode where
  | canonTextArmored
  | binaryArmored
  | binaryRaw
deriving DecidableEq, Repr

/-- What `KeyRing.DetachedSign` hands to the engine sign primitive. -/
structure DetachedSignPlan where
  signer : Entity
  mode : SignMode
deriving DecidableEq, Repr

/-- `KeyRing.DetachedSign`: scans the ring for the first entity whose
private key is present and not encrypted; with none it returns
`errKeyringNotUnlocked` before anything is written. The engine call
(`ArmoredDetachSignText` / `ArmoredDetachSign` / `DetachSign`) is
abstracted as the returned plan. -/
def KeyRing.DetachedSign (kr : KeyRing) (canonicalizeText armored : Bool) :
    Except PgpError DetachedSignPlan :=
  match kr.entities.find? Entity.unlockedSigner with
  | none => Except.error PgpError.keyRingNotUnlocked
  | some e =>
      Except.ok
        { signer := e
          mode :=
            if canonicalizeText then SignMode.canonTextArmored
            else if armored then SignMode.binaryArmored
            else SignMode.binaryRaw }

/-- The loop of `KeyRing.VerifyString` over the signer ring's entities,
carrying the mutable `err` variable. For each entity whose private key is
present and decrypted, the engine check
`openpgp.CheckArmoredDetachedSignature(kr.entities, ...)` runs; its result
is the parameter `check` (the call site is syntactically identical each
iteration). The loop returns as soon as the check yields nil or
`ErrSignatureExpired`; after the loop, a nil `err` becomes
`errKeyringNotUnlocked`, otherwise the last hard error is returned. -/
def verifyStringLoop (check : Option PgpError) :
    List Entity → Option PgpError → Option PgpError
  | [], err =>
      match err with
      | none => some PgpError.keyRingNotUnlocked
      | some e => some e
  | e :: rest, err =>
      if e.unlockedSigner then
        match check with
        | none => none
        | some c =>
            if c = PgpError.signatureExpired then some c
            else verifyStringLoop check rest (some c)
      else verifyStringLoop check rest err

/-- `KeyRing.VerifyString`: with no signer ring the loop is skipped and
`err` stays nil, so `errKeyringNotUnlocked` is returned. -/
def KeyRing.VerifyString (kr : KeyRing) (sign : Option KeyRing)
    (check : Option PgpError) : Option PgpError :=
  match sign with
  | none => some PgpError.keyRingNotUnlocked
  | some s => verifyStringLoop check s.entities none

/-- The subkey eligibility test of `KeyRing.Unlock`:
`!Sig.FlagsValid || Sig.FlagEncryptStorage || Sig.FlagEncryptCommunications`. -/
def SubkeySig.unlockEligible (s : SubkeySig) : Bool :=
  !s.flagsValid || s.flagEncryptStorage || s.flagEncryptCommunications

/-- The key-collection loop of `KeyRing.Unlock`: per entity, the primary
private key when present, then every subkey private key whose signature
flags pass `unlockEligible`. -/
def unlockKeys (kr : KeyRing) : List PrivateKey :=
  kr.entities.flatMap fun e =>
    e.privateKey.toList ++
      e.subkeys.filterMap fun sk =>
        match sk.privateKey with
        | some k => if sk.sig.unlockEligible then some k else none
        | none => none

/-- One iteration of the decryption loop of `Unlock`, on the accumulator
`(n, err)`: already-decrypted keys are skipped; otherwise
`err = key.Decrypt(passphrase)` overwrites `err` (with nil on success, in
which case `n` is incremented). -/
def attemptStep (passphrase : String) (acc : Nat × Option PgpError)
    (k : PrivateKey) : Nat × Option PgpError :=
  if !k.encrypted then acc
  else if k.pass = passphrase then (acc.1 + 1, none)
  else (acc.1, some (PgpError.wrongPassphrase k.keyid))

/-- The state change `key.Decrypt(passphrase)` makes on one key: a
successful decryption clears `encrypted`, a failed one leaves the key
unchanged. -/
def PrivateKey.tryUnlock (passphrase : String) (k : PrivateKey) : PrivateKey :=
  if k.encrypted && (k.pass == passphrase) then { k with encrypted := false }
  else k

/-- The ring after `Unlock`'s decryption loop. Go mutates the collected
keys through pointers; since each key's decryption depends only on that
key and the passphrase, this equals applying `tryUnlock` to every
collected component in place. -/
def Entity.applyUnlock (passphrase : String) (e : Entity) : Entity :=
  { e with
    privateKey := e.privateKey.map (PrivateKey.tryUnlock passphrase)
    subkeys := e.subkeys.map fun sk =>
      if sk.sig.unlockEligible then
        { sk with privateKey := sk.privateKey.map (PrivateKey.tryUnlock passphrase) }
      else sk }

/-- `KeyRing.Unlock`: collects the candidate keys; with none it returns
`noPrivateKeyAvailable` before attempting any decryption. Otherwise it
attempts every encrypted candidate, counting successes `n` and carrying
the last `key.Decrypt` result, returns that error when `n == 0`, and nil
otherwise. The pair holds the ring after the attempts and the error. -/
def KeyRing.Unlock (kr : KeyRing) (passphrase : String) :
    KeyRing × Option PgpError :=
  let keys := unlockKeys kr
  if keys.isEmpty then (kr, some PgpError.noPrivateKeyAvailable)
  else
    let r := keys.foldl (attemptStep passphrase) (0, none)
    ({ kr with entities := kr.entities.map (Entity.applyUnlock passphrase) },
     if r.1 = 0 then r.2 else none)

/-- `KeyRing.readFrom`: the engine parse
(`openpgp.ReadArmoredKeyRing` / `ReadKeyRing`, selected by the armored
flag) is a collaborator whose result enters as `(entities, err)`. The
fingerprint-recomputation loop only invokes engine primitives on the
parsed entities and does not affect the fields modelled here. A parse
error propagates; zero parsed entities fail with `noKeyMaterial`;
otherwise the entities are appended to the ring. -/
def KeyRing.readFrom (kr : KeyRing)
    (parsed : List Entity × Option PgpError) : KeyRing × Option PgpError :=
  match parsed.2 with
  | some e => (kr, some e)
  | none =>
      if parsed.1.isEmpty then (kr, some PgpError.noKeyMaterial)
      else ({ kr with entities := kr.entities ++ parsed.1 }, none)

/-- `PmCrypto.BuildKeyRing`: a fresh ring read from binary data via
`readFrom`. -/
def BuildKeyRing (parsed : List Entity × Option PgpError) :
    KeyRing × Option PgpError :=
  KeyRing.readFrom { entities := [], FirstKeyID := "" } parsed

/-- `ReadArmoredKeyRing`: a fresh ring read from armored data via
`readFrom`. -/
def ReadArmoredKeyRing (parsed : List Entity × Option PgpError) :
    KeyRing × Option PgpError :=
  KeyRing.readFrom { entities := [], FirstKeyID := "" } parsed

/-- `ReadKeyRing`: a fresh ring read from binary data via `readFrom`. -/
def ReadKeyRing (parsed : List Entity × Option PgpError) :
    KeyRing × Option PgpError :=
  KeyRing.readFrom { entities := [], FirstKeyID := "" } parsed

/-- A `pmKeyObject` JSON key record; only the fields this layer reads are
modelled. -/
structure pmKeyObject where
  ID : String
  PrivateKey : String
deriving DecidableEq, Repr

/-- `KeyRing.UnmarshalJSON`. `jsonRes` is the collaborator result of
`json.Unmarshal` (the decoded record list or an error); `parseKey` gives
the engine parse result of each record's armored private key. The entity
list is cleared first; a JSON error propagates; an empty record array
returns nil immediately. Otherwise the first record's ID becomes
`FirstKeyID` and each record is read via `readFrom`, whose error the
source discards. -/
def KeyRing.UnmarshalJSON (kr : KeyRing)
    (jsonRes : Except PgpError (List pmKeyObject))
    (parseKey : pmKeyObject → List Entity × Option PgpError) :
    KeyRing × Option PgpError :=
  let kr0 : KeyRing := { kr with entities := [] }
  match jsonRes with
  | Except.error e => (kr0, some e)
  | Except.ok keyObjs =>
      if keyObjs.isEmpty then (kr0, none)
      else
        let kr1 : KeyRing :=
          match keyObjs with
          | [] => kr0
          | ko :: _ => { kr0 with FirstKeyID := ko.ID }
        (keyObjs.foldl (fun acc ko => (acc.readFrom (parseKey ko)).1) kr1, none)

/-- The per-entity subkey loop of `FilterExpiredKeys`, accumulating the
pair `(hasExpired, hasUnexpired)`. -/
def entityExpiryFlags (e : Entity) : Bool × Bool :=
  e.subkeys.foldl
    (fun acc sk => if sk.sig.keyExpired then (true, acc.2) else (acc.1, true))
    (false, false)

/-- The per-ring entity loop of `FilterExpiredKeys`, accumulating
`(keyRingHasUnexpiredEntity, keyRingHasTotallyExpiredEntity)`. -/
def ringExpiryFlags (kr : KeyRing) : Bool × Bool :=
  kr.entities.foldl
    (fun acc e =>
      let f := entityExpiryFlags e
      if f.1 && !f.2 then (acc.1, true)
      else if f.2 then (true, acc.2)
      else acc)
    (false, false)

/-- `FilterExpiredKeys`: keeps the rings with an unexpired entity, flags
`hasExpiredEntity` when a dropped ring has a totally-expired entity, and
returns the `all contacts keys are expired` error exactly when the kept
list is empty and that flag is set. -/
def FilterExpiredKeys (contactKeys : List KeyRing) :
    List KeyRing × Option PgpError :=
  let acc := contactKeys.foldl
    (fun acc kr =>
      let f := ringExpiryFlags kr
      if f.1 then (acc.1 ++ [kr], acc.2)
      else if f.2 then (acc.1, true)
      else acc)
    (([] : List KeyRing), false)
  if acc.1.isEmpty && acc.2 then (acc.1, some PgpError.allKeysExpired)
  else (acc.1, none)

/-- The Close events of `armorEncryptWriter.Close`: closing the inner
encryption writer `ew` and closing the outer armor writer `aw`. -/
inductive CloseEvent where
  | inner
  | outer
deriving DecidableEq, Repr

/-- `armorEncryptWriter.Close`: `ewErr` and `awErr` are the collaborator
results of closing the inner encryption writer and the outer armor
writer. The function returns the ordered list of Close calls performed
together with the returned error: the inner writer is closed first, and a
failure there returns immediately without closing the outer writer. -/
def armorEncryptWriterClose (ewErr awErr : Option PgpError) :
    List CloseEvent × Option PgpError :=
  match ewErr with
  | some e => ([CloseEvent.inner], some e)
  | none => ([CloseEvent.inner, CloseEvent.outer], awErr)

/-! ### Concrete fixtures used by the witness theorems -/

/-- An encrypted private key unlocking with passphrase "pw". -/
def lockedKey : PrivateKey := { encrypted := true, pass := "pw", keyid := 1 }

/-- An already-decrypted private key. -/
def openKey : PrivateKey := { encrypted := false, pass := "pw", keyid := 2 }

/-- An entity whose private key is still encrypted. -/
def lockedEntity : Entity := { privateKey := some lockedKey, subkeys := [] }

/-- An entity whose private key is present and decrypted. -/
def openEntity : Entity := { privateKey := some openKey, subkeys := [] }

/-- An entity with no private material at all. -/
def publicEntity : Entity := { privateKey := none, subkeys := [] }

/-- A ring whose only private key is still encrypted. -/
def lockedRing : KeyRing := { entities := [lockedEntity], FirstKeyID := "" }

/-- A ring with an unlocked signing entity. -/
def openRing : KeyRing := { entities := [openEntity], FirstKeyID := "" }

/-- A ring with two entities, the first one unlocked. -/
def twoEntityRing : KeyRing :=
  { entities := [openEntity, lockedEntity], FirstKeyID := "" }

/-- A ring with no private key material. -/
def publicRing : KeyRing := { entities := [publicEntity], FirstKeyID := "" }

/-! ### C9 -/

/-- C9: `armorEncryptWriter.Close` always closes the inner encryption
stream first; when closing it fails, the outer armor stream's Close is
never invoked and the inner error is returned immediately; otherwise the
outer stream is closed afterwards and its result is returned. -/
theorem armor_close_inner_first_short_circuit (ewErr awErr : Option PgpError) :
    (armorEncryptWriterClose ewErr awErr).1.head? = some CloseEvent.inner ∧
    (CloseEvent.outer ∈ (armorEncryptWriterClose ewErr awErr).1 ↔ ewErr = none) ∧
    (∀ e, ewErr = some e →
      armorEncryptWriterClose ewErr awErr = ([CloseEvent.inner], some e)) ∧
    (ewErr = none →
      armorEncryptWriterClose ewErr awErr =
        ([CloseEvent.inner, CloseEvent.outer], awErr)) := by
  cases ewErr <;> simp [armorEncryptWriterClose]

/-- C9 witness: a concrete failing inner Close skips the outer Close. -/
theorem armor_close_inner_first_short_circuit_witness :
    armorEncryptWriterClose (some (PgpError.engine 7)) none =
      ([CloseEvent.inner], some (PgpError.engine 7)) :=
  (armor_close_inner_first_short_circuit (some (PgpError.engine 7)) none).2.2.1
    (PgpError.engine 7) rfl

/-! ### C5 -/

/-- C5: when the signer ring has no entity whose private key is present
and already decrypted, `Encrypt` with that signer and `DetachedSign` on
that ring fail with `errKeyringNotUnlocked` and produce no output plan;
neither call site takes a passphrase (see their types). -/
theorem encrypt_detachedsign_require_unlocked (kr s : KeyRing)
    (filename : String) (ct armored : Bool)
    (h : ∀ e ∈ s.entities, e.unlockedSigner = false) :
    kr.Encrypt (some s) filename ct = Except.error PgpError.keyRingNotUnlocked ∧
    s.DetachedSign ct armored = Except.error PgpError.keyRingNotUnlocked := by
  have hf : s.entities.find? Entity.unlockedSigner = none := by
    rw [List.find?_eq_none]
    intro x hx
    simp [h x hx]
  constructor <;> simp [KeyRing.Encrypt, KeyRing.DetachedSign, hf]

/-- C5 witness: a ring whose only private key is still encrypted. -/
theorem encrypt_detachedsign_require_unlocked_witness :
    lockedRing.Encrypt (some lockedRing) "" false =
        Except.error PgpError.keyRingNotUnlocked ∧
    lockedRing.DetachedSign false true =
        Except.error PgpError.keyRingNotUnlocked :=
  encrypt_detachedsign_require_unlocked lockedRing lockedRing "" false true
    (by decide)

/-! ### C6 -/

/-- C6: whenever `Encrypt` succeeds on a ring whose entity list starts
with `e`, the ciphertext is addressed to exactly `[e]`: every other
entity of the ring is ignored as a recipient. -/
theorem encrypt_addresses_first_entity_only (kr : KeyRing)
    (sign : Option KeyRing) (filename : String) (ct : Bool)
    (e : Entity) (rest : List Entity) (plan : EncryptPlan)
    (hent : kr.entities = e :: rest)
    (hok : kr.Encrypt sign filename ct = Except.ok plan) :
    plan.recipients = [e] := by
  have hrec : plan.recipients = firstEntityOnly kr.entities := by
    cases sign with
    | none =>
        simp only [KeyRing.Encrypt, Except.ok.injEq] at hok
        rw [← hok]
    | some s =>
        cases hfind : s.entities.find? Entity.unlockedSigner with
        | none => simp [KeyRing.Encrypt, hfind] at hok
        | some w =>
            simp only [KeyRing.Encrypt, hfind, Except.ok.injEq] at hok
            rw [← hok]
  rw [hrec, hent]
  rfl

/-- C6 witness: a two-entity ring encrypts to its first entity only. -/
theorem encrypt_addresses_first_entity_only_witness :
    ({ recipients := [openEntity], signer := none, filename := "n",
       isBinary := true } : EncryptPlan).recipients = [openEntity] :=
  encrypt_addresses_first_entity_only twoEntityRing none "n" false
    openEntity [lockedEntity] _ rfl rfl

/-! ### C10 -/

/-- C10: whenever `DecryptString` returns an error, that error is not
`signatureExpired`, and the returned `SignedString` carries the original
input string unmodified with a nil `Signature`. -/
theorem decrypt_string_failure_returns_original (kr : KeyRing)
    (encrypted : String) (armorRes : ArmorBlock × Option PgpError)
    (readMsg : MessageDetails × Option PgpError)
    (readAll : String × Option PgpError) (ss : SignedString) (e : PgpError)
    (h : kr.DecryptString encrypted armorRes readMsg readAll = (ss, some e)) :
    ss.str = encrypted ∧ ss.signed = none ∧ e ≠ PgpError.signatureExpired := by
  simp only [KeyRing.DecryptString] at h
  repeat' split at h
  all_goals rw [Prod.mk.injEq] at h
  all_goals obtain ⟨h1, h2⟩ := h
  all_goals first
    | exact absurd h2 (Option.noConfusion)
    | (injection h2 with he
       subst he
       subst h1
       exact ⟨rfl, rfl, by assumption⟩)

/-- C10 witness: a hard armor-decode failure hands back the input. -/
theorem decrypt_string_failure_returns_original_witness :
    ("in" : String) = "in" ∧
      (none : Option Signature) = none ∧
      PgpError.engine 3 ≠ PgpError.signatureExpired :=
  decrypt_string_failure_returns_original openRing "in"
    (⟨"PGP MESSAGE"⟩, some (PgpError.engine 3))
    (⟨"", false, none⟩, none) ("", none) ⟨"in", none⟩ (PgpError.engine 3) rfl

/-! ### C4 -/

/-- C4 counterexample: the JSON construction path does not fail on a
zero-entity result. `UnmarshalJSON` on an empty record array returns a
nil error and a ring with zero entities. -/
theorem unmarshal_empty_json_succeeds_counterexample :
    ({ entities := [lockedEntity], FirstKeyID := "k" } : KeyRing).UnmarshalJSON
        (Except.ok []) (fun _ => ([], none)) =
      ({ entities := [], FirstKeyID := "k" }, none) := rfl

/-- C4 (amended): the construction paths that go through `readFrom`
(`BuildKeyRing`, `ReadArmoredKeyRing`, `ReadKeyRing`) fail with the
`noKeyMaterial` error when the engine parses zero entities without error;
the JSON-record path does not: `UnmarshalJSON` on an empty record array
returns success with a zero-entity ring. -/
theorem readfrom_paths_fail_on_zero_entities (kr : KeyRing)
    (parseKey : pmKeyObject → List Entity × Option PgpError) :
    (kr.readFrom ([], none)).2 = some PgpError.noKeyMaterial ∧
    BuildKeyRing ([], none) =
      ({ entities := [], FirstKeyID := "" }, some PgpError.noKeyMaterial) ∧
    ReadArmoredKeyRing ([], none) =
      ({ entities := [], FirstKeyID := "" }, some PgpError.noKeyMaterial) ∧
    ReadKeyRing ([], none) =
      ({ entities := [], FirstKeyID := "" }, some PgpError.noKeyMaterial) ∧
    kr.UnmarshalJSON (Except.ok []) parseKey = ({ kr with entities := [] }, none) := by
  refine ⟨rfl, rfl, rfl, rfl, rfl⟩

/-! ### C1 -/

/-- C1: a decryption whose engine error is `signatureExpired` still
delivers the full decrypted plaintext: `Decrypt` returns the whole
unverified body together with the tolerated `signatureExpired` value, and
`DecryptString` returns the decrypted content with a nil error and a
`Signature` handle whose outcome is Expired, not Invalid; any other
engine error aborts both with that hard error and no content. -/
theorem decrypt_tolerates_signature_expired (kr : KeyRing)
    (md : MessageDetails) (e : PgpError) (encT b : String)
    (block : ArmorBlock) :
    (kr.Decrypt (md, some PgpError.signatureExpired) =
      { decrypted := some md.unverifiedBody
        signed := if md.isSigned then some ⟨md⟩ else none
        err := some PgpError.signatureExpired }) ∧
    (e ≠ PgpError.signatureExpired →
      kr.Decrypt (md, some e) =
        { decrypted := none, signed := none, err := some e }) ∧
    (block.type = PGPMessageHeader → md.isSigned = true →
      md.signatureError = some PgpError.signatureExpired →
      kr.DecryptString encT (block, none) (md, none)
          (md.unverifiedBody, some PgpError.signatureExpired) =
        ({ str := md.unverifiedBody, signed := some ⟨md⟩ }, none) ∧
      Signature.outcome ⟨md⟩ = VerificationOutcome.expired) ∧
    (block.type = PGPMessageHeader → e ≠ PgpError.signatureExpired →
      kr.DecryptString encT (block, none) (md, none) (b, some e) =
        ({ str := encT, signed := none }, some e)) := by
  refine ⟨by simp [KeyRing.Decrypt], fun he => by simp [KeyRing.Decrypt, he],
    fun ht hs herr => ⟨?_, ?_⟩, fun ht he => ?_⟩
  · simp [KeyRing.DecryptString, KeyRing.DecryptArmored, KeyRing.Decrypt, ht, hs]
  · simp [Signature.outcome, Signature.Err, herr]
  · simp [KeyRing.DecryptString, KeyRing.DecryptArmored, KeyRing.Decrypt, ht, he]

/-- A concrete signed message whose signature turned out expired. -/
def expiredMd : MessageDetails :=
  { unverifiedBody := "hello", isSigned := true,
    signatureError := some PgpError.signatureExpired }

/-- C1 witness: a concrete expired-signature message still decrypts to
its plaintext with outcome Expired and no error. -/
theorem decrypt_tolerates_signature_expired_witness :
    openRing.DecryptString "ct" (⟨"PGP MESSAGE"⟩, none) (expiredMd, none)
        (expiredMd.unverifiedBody, some PgpError.signatureExpired) =
      ({ str := expiredMd.unverifiedBody, signed := some ⟨expiredMd⟩ }, none) ∧
    Signature.outcome ⟨expiredMd⟩ = VerificationOutcome.expired :=
  (decrypt_tolerates_signature_expired openRing expiredMd
    (PgpError.engine 0) "ct" "" ⟨"PGP MESSAGE"⟩).2.2.1 rfl rfl rfl

/-! ### C8 -/

/-- The `VerifyString` loop returns `errKeyringNotUnlocked` when no
entity of the signer ring is unlocked: the engine check never runs and
the carried error keeps its incoming value, which at the top call is nil. -/
theorem verifyStringLoop_all_locked (check : Option PgpError) :
    ∀ (l : List Entity) (err : Option PgpError),
      (∀ e ∈ l, e.unlockedSigner = false) →
      verifyStringLoop check l err =
        (match err with
         | none => some PgpError.keyRingNotUnlocked
         | some c => some c) := by
  intro l
  induction l with
  | nil => intro err _; rfl
  | cons x rest ih =>
      intro err hall
      have hx : x.unlockedSigner = false := hall x (by simp)
      simp only [verifyStringLoop, hx, Bool.false_eq_true, if_false]
      exact ih err fun e he => hall e (by simp [he])

/-- As soon as some entity of the signer ring is unlocked and the engine
check reports `signatureExpired`, the `VerifyString` loop returns that
tolerated value. -/
theorem verifyStringLoop_expired_tolerated :
    ∀ (l : List Entity) (err : Option PgpError),
      (∃ e ∈ l, e.unlockedSigner = true) →
      verifyStringLoop (some PgpError.signatureExpired) l err =
        some PgpError.signatureExpired := by
  intro l
  induction l with
  | nil => intro err h; simp at h
  | cons x rest ih =>
      intro err h
      by_cases hx : x.unlockedSigner = true
      · simp [verifyStringLoop, hx]
      · obtain ⟨e, he, hu⟩ := h
        rcases List.mem_cons.mp he with rfl | hmem
        · exact absurd hu hx
        · simp only [verifyStringLoop, hx, if_false]
          exact ih err ⟨e, hmem, hu⟩

/-- C8: detached verification fails with `errKeyringNotUnlocked` when no
entity of the signer ring has an unlocked private key (also when no
signer ring is supplied); when some entity is unlocked and the engine
check reports `signatureExpired`, `VerifyString` returns exactly that
tolerated value — the outcome its documentation declares a successful
verification — rather than a hard failure. -/
theorem verify_string_unlocked_gate_and_expiry (kr s : KeyRing)
    (check : Option PgpError) :
    ((∀ e ∈ s.entities, e.unlockedSigner = false) →
      kr.VerifyString (some s) check = some PgpError.keyRingNotUnlocked) ∧
    ((∃ e ∈ s.entities, e.unlockedSigner = true) →
      kr.VerifyString (some s) (some PgpError.signatureExpired) =
        some PgpError.signatureExpired) ∧
    kr.VerifyString none check = some PgpError.keyRingNotUnlocked := by
  refine ⟨fun h => ?_, fun h => ?_, rfl⟩
  · simpa [KeyRing.VerifyString] using verifyStringLoop_all_locked check s.entities none h
  · simpa [KeyRing.VerifyString] using verifyStringLoop_expired_tolerated s.entities none h

/-- C8 witness: a locked ring gates with `keyRingNotUnlocked`; an
unlocked ring passes an expired check through as the tolerated value. -/
theorem verify_string_unlocked_gate_and_expiry_witness :
    openRing.VerifyString (some lockedRing) none =
        some PgpError.keyRingNotUnlocked ∧
    openRing.VerifyString (some openRing) (some PgpError.signatureExpired) =
        some PgpError.signatureExpired :=
  ⟨(verify_string_unlocked_gate_and_expiry openRing lockedRing none).1
      (by decide),
   (verify_string_unlocked_gate_and_expiry openRing openRing none).2.1
      ⟨openEntity, by decide, by decide⟩⟩

/-! ### C7 -/

/-- The candidate filter of one subkey, as `Unlock` writes it. -/
theorem subkey_candidate_eq_some (sk : Subkey) (k : PrivateKey) :
    (match sk.privateKey with
      | some k' => if sk.sig.unlockEligible then some k' else none
      | none => none) = some k ↔
    sk.privateKey = some k ∧ sk.sig.unlockEligible = true := by
  cases hp : sk.privateKey with
  | none => simp
  | some k' =>
      by_cases he : sk.sig.unlockEligible = true <;> simp [he]

/-- C7: `Unlock` attempts exactly these components: every primary private
key that is present (the source treats primary private keys as the
signing keys and applies no further capability test to them), plus every
subkey private key whose flags are invalid or mark it encryption-capable
for storage or communications; and with no such component it fails with
`noPrivateKeyAvailable` before attempting any decryption, leaving the
ring untouched. -/
theorem unlock_candidate_set (kr : KeyRing) (passphrase : String)
    (k : PrivateKey) :
    (k ∈ unlockKeys kr ↔
      ∃ e ∈ kr.entities,
        e.privateKey = some k ∨
        ∃ sk ∈ e.subkeys, sk.privateKey = some k ∧
          (sk.sig.flagsValid = false ∨ sk.sig.flagEncryptStorage = true ∨
           sk.sig.flagEncryptCommunications = true)) ∧
    (unlockKeys kr = [] →
      kr.Unlock passphrase = (kr, some PgpError.noPrivateKeyAvailable)) := by
  constructor
  · rw [unlockKeys, List.mem_flatMap]
    refine exists_congr fun e => and_congr_right fun _ => ?_
    rw [List.mem_append, List.mem_filterMap]
    refine or_congr ?_ (exists_congr fun sk => and_congr_right fun _ => ?_)
    · cases e.privateKey <;> simp [eq_comm]
    · rw [subkey_candidate_eq_some]
      refine and_congr_right fun _ => ?_
      simp [SubkeySig.unlockEligible, Bool.or_eq_true, Bool.not_eq_eq_eq_not,
        or_assoc]
  · intro h
    simp [KeyRing.Unlock, h]

/-- C7 witness: a ring with no private key components fails with
`noPrivateKeyAvailable` and is returned unchanged. -/
theorem unlock_candidate_set_witness :
    publicRing.Unlock "pw" = (publicRing, some PgpError.noPrivateKeyAvailable) :=
  (unlock_candidate_set publicRing "pw" lockedKey).2 rfl

/-! ### C2 -/

/-- The success counter of `Unlock`'s loop counts exactly the encrypted
candidates the passphrase decrypts. -/
theorem attempt_count (passphrase : String) :
    ∀ (keys : List PrivateKey) (n0 : Nat) (e0 : Option PgpError),
      (keys.foldl (attemptStep passphrase) (n0, e0)).1 =
        n0 + (keys.filter fun k => k.encrypted && (k.pass == passphrase)).length := by
  intro keys
  induction keys with
  | nil => intro n0 e0; simp
  | cons k rest ih =>
      intro n0 e0
      by_cases hk : k.encrypted = true
      · by_cases hp : k.pass = passphrase
        · simp only [List.foldl_cons, attemptStep, hk, Bool.not_true,
            Bool.false_eq_true, if_false, if_pos hp]
          rw [ih]
          simp only [List.filter_cons, hk, hp, beq_self_eq_true, Bool.true_and,
            Bool.and_self, if_true, List.length_cons, ite_true]
          omega
        · simp only [List.foldl_cons, attemptStep, hk, Bool.not_true,
            Bool.false_eq_true, if_false, if_neg hp]
          rw [ih]
          simp [List.filter_cons, hk, hp]
      · have hk' : k.encrypted = false := by
          cases h : k.encrypted
          · rfl
          · exact absurd h hk
        simp only [List.foldl_cons, attemptStep, hk', Bool.not_false, if_true]
        rw [ih]
        simp [List.filter_cons, hk']

/-- Already-decrypted keys are skipped: the loop state is unchanged over
a stretch of them. -/
theorem attempt_skip_all (passphrase : String) :
    ∀ (keys : List PrivateKey) (init : Nat × Option PgpError),
      (∀ k ∈ keys, k.encrypted = false) →
      keys.foldl (attemptStep passphrase) init = init := by
  intro keys
  induction keys with
  | nil => intro init _; rfl
  | cons k rest ih =>
      intro init hall
      have hk : k.encrypted = false := hall k (by simp)
      simp only [List.foldl_cons, attemptStep, hk, Bool.not_false, if_true]
      exact ih init fun x hx => hall x (by simp [hx])

/-- When the passphrase decrypts nothing, the carried error ends as the
decryption error of the last encrypted candidate (or the incoming value
when there is none): the "last per-component decryption error". -/
theorem attempt_last_error (passphrase : String) :
    ∀ (keys : List PrivateKey) (n0 : Nat) (e0 : Option PgpError),
      (∀ k ∈ keys, k.encrypted = true → ¬k.pass = passphrase) →
      (keys.foldl (attemptStep passphrase) (n0, e0)).2 =
        (match (keys.filter fun k => k.encrypted).getLast? with
         | none => e0
         | some k => some (PgpError.wrongPassphrase k.keyid)) := by
  intro keys
  induction keys with
  | nil => intro n0 e0 _; rfl
  | cons k rest ih =>
      intro n0 e0 hall
      by_cases hk : k.encrypted = true
      · have hp : ¬k.pass = passphrase := hall k (by simp) hk
        simp only [List.foldl_cons, attemptStep, hk, Bool.not_true,
          Bool.false_eq_true, if_false, if_neg hp]
        rw [List.filter_cons_of_pos hk]
        cases hrest : rest.filter (fun k => k.encrypted) with
        | nil =>
            have hnone : ∀ x ∈ rest, x.encrypted = false := by
              intro x hx
              have := (List.filter_eq_nil_iff.mp hrest) x hx
              cases h : x.encrypted
              · rfl
              · exact absurd h this
            rw [attempt_skip_all passphrase rest _ hnone]
            simp
        | cons k' l' =>
            rw [ih n0 (some (PgpError.wrongPassphrase k.keyid))
              (fun x hx h1 => hall x (by simp [hx]) h1), hrest,
              List.getLast?_cons_cons]
            cases hg : (k' :: l').getLast? with
            | none => simp [List.getLast?_eq_none_iff] at hg
            | some kl => rfl
      · have hk' : k.encrypted = false := by
          cases h : k.encrypted
          · rfl
          · exact absurd h hk
        simp only [List.foldl_cons, attemptStep, hk', Bool.not_false, if_true]
        rw [ih n0 e0 (fun x hx h1 => hall x (by simp [hx]) h1),
          List.filter_cons_of_neg (by simp [hk'])]

/-- C2: with at least one candidate component, `Unlock` returns success
whenever the number `n` of components newly decrypted with the passphrase
is strictly positive, even if other components remain encrypted; and
whenever it returns an error, `n = 0` and the error is the decryption
error of the last encrypted component attempted. -/
theorem unlock_partial_success (kr : KeyRing) (passphrase : String)
    (hkeys : unlockKeys kr ≠ []) :
    (0 < ((unlockKeys kr).filter fun k =>
        k.encrypted && (k.pass == passphrase)).length →
      (kr.Unlock passphrase).2 = none) ∧
    (∀ e, (kr.Unlock passphrase).2 = some e →
      ((unlockKeys kr).filter fun k =>
          k.encrypted && (k.pass == passphrase)).length = 0 ∧
      some e = ((unlockKeys kr).filter fun k => k.encrypted).getLast?.map
          (fun k => PgpError.wrongPassphrase k.keyid)) := by
  have hempty : (unlockKeys kr).isEmpty = false :=
    List.isEmpty_eq_false_iff_exists_mem.mpr
      (List.exists_mem_of_ne_nil _ hkeys)
  have hcount := attempt_count passphrase (unlockKeys kr) 0 none
  constructor
  · intro hn
    simp only [KeyRing.Unlock, hempty, Bool.false_eq_true, if_false]
    have : ((unlockKeys kr).foldl (attemptStep passphrase) (0, none)).1 ≠ 0 := by
      rw [hcount]; omega
    simp [this]
  · intro e he
    simp only [KeyRing.Unlock, hempty, Bool.false_eq_true, if_false] at he
    by_cases hz : ((unlockKeys kr).foldl (attemptStep passphrase) (0, none)).1 = 0
    · rw [if_pos hz] at he
      have hn0 : ((unlockKeys kr).filter fun k =>
          k.encrypted && (k.pass == passphrase)).length = 0 := by
        rw [hcount] at hz; omega
      refine ⟨hn0, ?_⟩
      have hmismatch : ∀ k ∈ unlockKeys kr, k.encrypted = true →
          ¬k.pass = passphrase := by
        intro k hkmem hkenc hkp
        have : k ∈ (unlockKeys kr).filter fun k =>
            k.encrypted && (k.pass == passphrase) := by
          rw [List.mem_filter]
          exact ⟨hkmem, by simp [hkenc, hkp]⟩
        rw [List.length_eq_zero.mp hn0] at this
        simp at this
      rw [attempt_last_error passphrase (unlockKeys kr) 0 none hmismatch] at he
      rw [← he]
      cases ((unlockKeys kr).filter fun k => k.encrypted).getLast? <;> rfl
    · rw [if_neg hz] at he
      exact absurd he (by simp)

/-- A ring mixing two passphrases: the primary key opens with "a", the
eligible subkey with "b". -/
def mixedRing : KeyRing :=
  { entities := [
      { privateKey := some { encrypted := true, pass := "a", keyid := 1 }
        subkeys := [
          { privateKey := some { encrypted := true, pass := "b", keyid := 2 }
            sig := { flagsValid := true, flagEncryptStorage := true,
                     flagEncryptCommunications := false, keyExpired := false } }] }]
    FirstKeyID := "" }

/-- C2 witness: unlocking the mixed ring with "a" decrypts one of its two
components, which counts as success. -/
theorem unlock_partial_success_witness :
    (mixedRing.Unlock "a").2 = none :=
  (unlock_partial_success mixedRing "a" (by decide)).1 (by decide)

/-! ### C3 -/

/-- An entity with at least one non-expired subkey. -/
def entityHasUnexpiredSubkey (e : Entity) : Bool :=
  e.subkeys.any fun sk => !sk.sig.keyExpired

/-- A totally-expired entity: at least one subkey, and every subkey
expired. -/
def entityTotallyExpired (e : Entity) : Bool :=
  !e.subkeys.isEmpty && e.subkeys.all fun sk => sk.sig.keyExpired

/-- A ring with at least one entity holding a non-expired subkey. -/
def ringHasUnexpiredEntity (kr : KeyRing) : Bool :=
  kr.entities.any entityHasUnexpiredSubkey

/-- A ring containing a totally-expired entity. -/
def ringHasTotallyExpiredEntity (kr : KeyRing) : Bool :=
  kr.entities.any entityTotallyExpired

/-- The subkey loop of `FilterExpiredKeys` computes, for any incoming
flag pair, the disjunction with "some subkey expired" and "some subkey
unexpired". -/
theorem entity_flags_fold (l : List Subkey) :
    ∀ (a b : Bool),
      l.foldl (fun acc sk =>
          if sk.sig.keyExpired then (true, acc.2) else (acc.1, true)) (a, b) =
        (a || l.any fun sk => sk.sig.keyExpired,
         b || l.any fun sk => !sk.sig.keyExpired) := by
  induction l with
  | nil => intro a b; simp
  | cons sk rest ih =>
      intro a b
      by_cases h : sk.sig.keyExpired = true
      · simp [h, ih, Bool.or_assoc]
      · have h' : sk.sig.keyExpired = false := by
          cases hx : sk.sig.keyExpired
          · rfl
          · exact absurd hx h
        simp [h', ih, Bool.or_assoc]

/-- "Some subkey expired and none unexpired" is the same Boolean as "at
least one subkey and all expired". -/
theorem any_and_not_any_not (l : List Subkey) :
    (l.any (fun sk => sk.sig.keyExpired) &&
      !(l.any fun sk => !sk.sig.keyExpired)) =
    (!l.isEmpty && l.all fun sk => sk.sig.keyExpired) := by
  induction l with
  | nil => rfl
  | cons sk rest ih =>
      cases hx : sk.sig.keyExpired <;>
        simp_all [List.any_cons, List.all_cons, List.all_eq_not_any_not]

/-- `entityExpiryFlags` computes the pair (some subkey expired, some
subkey unexpired). -/
theorem entityExpiryFlags_spec (e : Entity) :
    entityExpiryFlags e =
      (e.subkeys.any fun sk => sk.sig.keyExpired, entityHasUnexpiredSubkey e) := by
  rw [entityExpiryFlags, entity_flags_fold]
  simp [entityHasUnexpiredSubkey]

/-- The entity loop of `FilterExpiredKeys` computes, for any incoming
flag pair, the disjunction with the ring-level predicates. -/
theorem ring_flags_fold (l : List Entity) :
    ∀ (a b : Bool),
      l.foldl (fun acc e =>
          let f := entityExpiryFlags e
          if f.1 && !f.2 then (acc.1, true)
          else if f.2 then (true, acc.2)
          else acc) (a, b) =
        (a || l.any entityHasUnexpiredSubkey, b || l.any entityTotallyExpired) := by
  induction l with
  | nil => intro a b; simp
  | cons e rest ih =>
      intro a b
      have hf2 : (entityExpiryFlags e).2 = entityHasUnexpiredSubkey e := by
        rw [entityExpiryFlags_spec]
      have htot : ((entityExpiryFlags e).1 && !(entityExpiryFlags e).2) =
          entityTotallyExpired e := by
        rw [entityExpiryFlags_spec]
        exact any_and_not_any_not e.subkeys
      simp only [List.foldl_cons]
      rw [List.any_cons, List.any_cons]
      cases ht : entityTotallyExpired e with
      | true =>
          have h1 : ((entityExpiryFlags e).1 && !(entityExpiryFlags e).2) = true := by
            rw [htot, ht]
          have hu : entityHasUnexpiredSubkey e = false := by
            rw [← hf2]
            have h1' := h1
            simp only [Bool.and_eq_true] at h1'
            rcases h1' with ⟨_, hn⟩
            cases hx : (entityExpiryFlags e).2
            · rfl
            · rw [hx] at hn
              exact Bool.noConfusion hn
          rw [if_pos h1, ih, hu]
          simp
      | false =>
          have h1 : ((entityExpiryFlags e).1 && !(entityExpiryFlags e).2) = false := by
            rw [htot, ht]
          rw [if_neg (by simp [h1])]
          cases hu : entityHasUnexpiredSubkey e with
          | true =>
              have h2 : (entityExpiryFlags e).2 = true := by rw [hf2, hu]
              rw [if_pos h2, ih]
              simp
          | false =>
              have h2 : (entityExpiryFlags e).2 = false := by rw [hf2, hu]
              rw [if_neg (by simp [h2]), ih]
              simp

/-- `ringExpiryFlags` computes the two ring-level predicates. -/
theorem ringExpiryFlags_spec (kr : KeyRing) :
    ringExpiryFlags kr =
      (ringHasUnexpiredEntity kr, ringHasTotallyExpiredEntity kr) := by
  rw [ringExpiryFlags, ring_flags_fold]
  simp [ringHasUnexpiredEntity, ringHasTotallyExpiredEntity]

/-- The ring loop of `FilterExpiredKeys` appends exactly the rings with
an unexpired entity and ORs in "some dropped ring has a totally-expired
entity". -/
theorem filter_fold_spec (l : List KeyRing) :
    ∀ (acc1 : List KeyRing) (b : Bool),
      l.foldl (fun acc kr =>
          let f := ringExpiryFlags kr
          if f.1 then (acc.1 ++ [kr], acc.2)
          else if f.2 then (acc.1, true)
          else acc) (acc1, b) =
        (acc1 ++ l.filter ringHasUnexpiredEntity,
         b || l.any fun kr => !ringHasUnexpiredEntity kr &&
           ringHasTotallyExpiredEntity kr) := by
  induction l with
  | nil => intro acc1 b; simp
  | cons kr rest ih =>
      intro acc1 b
      have hspec := ringExpiryFlags_spec kr
      cases hu : ringHasUnexpiredEntity kr <;>
        cases ht : ringHasTotallyExpiredEntity kr <;>
        rw [hu, ht] at hspec <;>
        simp [List.foldl_cons, hspec, ih, List.filter_cons, List.any_cons,
          hu, ht]

/-- C3: `FilterExpiredKeys` keeps exactly the rings with at least one
entity holding at least one non-expired subkey, in order; it reports the
`allKeysExpired` error if and only if the kept list is empty and some
input ring contains a totally-expired entity (one with at least one
subkey, all expired); and its only possible error is that one — rings
that are neither kept nor totally expired are dropped silently. -/
theorem filter_expired_keys_spec (contactKeys : List KeyRing) :
    (FilterExpiredKeys contactKeys).1 =
      contactKeys.filter ringHasUnexpiredEntity ∧
    ((FilterExpiredKeys contactKeys).2 = some PgpError.allKeysExpired ↔
      contactKeys.filter ringHasUnexpiredEntity = [] ∧
      ∃ kr ∈ contactKeys, ∃ e ∈ kr.entities, entityTotallyExpired e = true) ∧
    ((FilterExpiredKeys contactKeys).2 = none ∨
      (FilterExpiredKeys contactKeys).2 = some PgpError.allKeysExpired) := by
  have hfold := filter_fold_spec contactKeys [] false
  simp only [List.nil_append, Bool.false_or] at hfold
  have hdef : FilterExpiredKeys contactKeys =
      (contactKeys.filter ringHasUnexpiredEntity,
       if ((contactKeys.filter ringHasUnexpiredEntity).isEmpty &&
          (contactKeys.any fun kr => !ringHasUnexpiredEntity kr &&
            ringHasTotallyExpiredEntity kr))
       then some PgpError.allKeysExpired else none) := by
    unfold FilterExpiredKeys
    rw [hfold]
    split <;> simp_all
  rw [hdef]
  refine ⟨rfl, ?_, ?_⟩
  · by_cases hc : ((contactKeys.filter ringHasUnexpiredEntity).isEmpty &&
        (contactKeys.any fun kr => !ringHasUnexpiredEntity kr &&
          ringHasTotallyExpiredEntity kr)) = true
    · rw [Bool.and_eq_true] at hc
      obtain ⟨h1, h2⟩ := hc
      rw [List.any_eq_true] at h2
      obtain ⟨kr, hkr, hflag⟩ := h2
      rw [Bool.and_eq_true] at hflag
      have h3 := hflag.2
      rw [ringHasTotallyExpiredEntity, List.any_eq_true] at h3
      obtain ⟨e, he, hte⟩ := h3
      refine iff_of_true ?_ ⟨List.isEmpty_iff.mp h1, kr, hkr, e, he, hte⟩
      simp [h1, List.any_eq_true]
      exact ⟨kr, hkr, by simpa using hflag.1, hflag.2⟩
    · refine iff_of_false ?_ ?_
      · intro hsome
        rw [if_neg hc] at hsome
        exact Option.noConfusion hsome
      · rintro ⟨hempty, kr, hkr, e, he, hte⟩
        refine hc ?_
        rw [Bool.and_eq_true]
        refine ⟨List.isEmpty_iff.mpr hempty, ?_⟩
        rw [List.any_eq_true]
        refine ⟨kr, hkr, ?_⟩
        have hukr : ringHasUnexpiredEntity kr = false := by
          have hnot := List.filter_eq_nil_iff.mp hempty kr hkr
          cases hx : ringHasUnexpiredEntity kr
          · rfl
          · exact absurd hx hnot
        have htkr : ringHasTotallyExpiredEntity kr = true := by
          rw [ringHasTotallyExpiredEntity, List.any_eq_true]
          exact ⟨e, he, hte⟩
        rw [hukr, htkr]
        rfl
  · by_cases hc : ((contactKeys.filter ringHasUnexpiredEntity).isEmpty &&
        (contactKeys.any fun kr => !ringHasUnexpiredEntity kr &&
          ringHasTotallyExpiredEntity kr)) = true
    · exact Or.inr (by rw [if_pos hc])
    · exact Or.inl (by rw [if_neg hc])

/-- A ring whose single entity has one subkey, expired. -/
def expiredRing : KeyRing :=
  { entities := [
      { privateKey := none
        subkeys := [
          { privateKey := none
            sig := { flagsValid := true, flagEncryptStorage := true,
                     flagEncryptCommunications := false, keyExpired := true } }] }]
    FirstKeyID := "" }

/-- C3 witness: a single totally-expired ring is dropped and flagged with
the collective error. -/
theorem filter_expired_keys_spec_witness :
    (FilterExpiredKeys [expiredRing]).2 = some PgpError.allKeysExpired :=
  (filter_expired_keys_spec [expiredRing]).2.1.mpr
    ⟨by decide, expiredRing, by simp,
     { privateKey := none
       subkeys := [
         { privateKey := none
           sig := { flagsValid := true, flagEncryptStorage := true,
                    flagEncryptCommunications := false, keyExpired := true } }] },
     by simp [expiredRing], by decide⟩

end PmCrypto
